import Mathlib

set_option maxRecDepth 100000

/-!
Shallow embedding of the subscription-analysis core of the
gmail-sub-agent repository (files `src/gmail_scanner.py`,
`src/subscription_analyzer.py` and the pipeline glue in `src/agent.py`),
together with theorems settling the specification claims about it.

Modelling conventions:
* Python strings are Lean `String`s (in this toolchain a `String` wraps a
  `List Char`); all relevant text is ASCII apart from the currency symbols.
* Python floats here only ever hold values parsed from decimal numerals
  and the results of a few fixed arithmetic operations on them; they are
  modelled as exact rationals.
* `datetime` values and message timestamps live on one rational timeline
  of seconds since the epoch; `timedelta.days` is the floor of the
  difference divided by 86400, exactly Python's normalisation.
* `re.search` / `re.finditer` on the concrete patterns of this code base
  are modelled by specialised scanners.  On these patterns the greedy
  quantifiers never need backtracking to decide a match at a given start
  position (whenever a greedy run is shortened, the following token would
  have to match one of the characters the run consumed, which is
  impossible by character class), so a deterministic scanner is
  observationally equal to the Python engine; comments at each scanner
  explain the cases.
-/

/-- Characters of `s` lowercased (Python `str.lower`; ASCII-faithful). -/
def lowerStr (s : String) : String := String.mk (s.data.map Char.toLower)

/-- Decidable test that `n` is a prefix of `h`. -/
def isPre : List Char → List Char → Bool
  | [], _ => true
  | _ :: _, [] => false
  | a :: as, b :: bs => a == b && isPre as bs

/-- Decidable substring test (Python `n in h` on the character lists). -/
def hasSubList (n : List Char) : List Char → Bool
  | [] => isPre n []
  | c :: cs => isPre n (c :: cs) || hasSubList n cs

/-- Python `needle in hay` on strings. -/
def containsStr (hay needle : String) : Bool := hasSubList needle.data hay.data

/-- Case-insensitive substring test: models `re.search` of a literal
pattern under `re.IGNORECASE`. -/
def containsCI (hay needle : String) : Bool :=
  containsStr (lowerStr hay) (lowerStr needle)

/-- Python `c in s` for a single character. -/
def hasChar (c : Char) (s : String) : Bool := s.data.contains c

/-- Python `s.split(sep)[0]`: the part before the first occurrence of the
separator (the whole string when the separator is absent). -/
def beforeFirst (c : Char) (l : List Char) : List Char :=
  l.takeWhile (fun x => x != c)

/-- Python `s.split(sep)[-1]`: the part after the last occurrence of the
separator (the whole string when the separator is absent). -/
def afterLast (c : Char) (l : List Char) : List Char :=
  (l.reverse.takeWhile (fun x => x != c)).reverse

/-- Python `str.title` (ASCII): a letter is uppercased when the previous
character is not a letter, lowercased otherwise. -/
def pyTitleGo : Bool → List Char → List Char
  | _, [] => []
  | prevCased, c :: cs =>
    if c.isAlpha then
      (if prevCased then c.toLower else c.toUpper) :: pyTitleGo true cs
    else c :: pyTitleGo false cs

def pyTitle (l : List Char) : String := String.mk (pyTitleGo false l)

/-- Numeric value of a digit string. -/
def digitsToNat (l : List Char) : Nat :=
  l.foldl (fun n c => n * 10 + (c.toNat - 48)) 0

/-- Python `float` applied to a matched amount (digits, optionally one
separator and more digits; a comma is first replaced by a dot).  Such
decimal numerals are modelled as exact rationals, and `float` never
raises on them, so the source's `except ValueError` branch is dead. -/
def parseAmount (l : List Char) : ℚ :=
  let l' := l.map (fun c => if c == ',' then '.' else c)
  let ip := l'.takeWhile (fun c => c != '.')
  let fp := (l'.dropWhile (fun c => c != '.')).drop 1
  (digitsToNat ip : ℚ) + (digitsToNat fp : ℚ) / ((10 : ℚ) ^ fp.length)

/-- The regex class `\d` (all matched text is ASCII, where it means 0-9). -/
def isDig (c : Char) : Bool := c.isDigit

/-- The regex class `\s` (ASCII whitespace of Python `re`). -/
def isSpc (c : Char) : Bool :=
  c == ' ' || c == '\t' || c == '\n' || c == '\r' || c == '\x0b' || c == '\x0c'

/-- The character class `[$£€]`. -/
def isCurSym (c : Char) : Bool := c == '$' || c == '£' || c == '€'

/-- Case-insensitive literal prefix test (`re.IGNORECASE` on ASCII). -/
def isPreCI : List Char → List Char → Bool
  | [], _ => true
  | _ :: _, [] => false
  | a :: as, b :: bs => a.toLower == b.toLower && isPreCI as bs

/-- A raw message as produced by `GmailScanner.extract_email_content` and
consumed by the analysis pipeline: exactly the dictionary keys the core
reads.  `service_name` is the optional annotation that `agent.scan_gmail`
adds before calling the analyzer. -/
structure Email where
  id : String
  from_field : String
  subject : String
  body_text : String
  timestamp : ℚ
  service_name : Option String
deriving DecidableEq

/-- The subscription record dictionary built by
`SubscriptionAnalyzer.analyze_subscription_emails`. -/
structure Subscription where
  service_name : String
  category : String
  amount : Option ℚ
  currency : String
  billing_frequency : String
  monthly_cost : Option ℚ
  last_email_date : ℚ
  is_active : Bool
  is_free_trial : Bool
  trial_end_date : Option ℚ
  email_count : Nat
  latest_email_id : String
deriving DecidableEq

/-- The summary dictionary built by
`SubscriptionAnalyzer.generate_summary_report`.  The two Python dicts are
modelled as association lists in key-insertion order. -/
structure SummaryReport where
  total_subscriptions : Nat
  active_subscriptions : Nat
  total_monthly_cost : ℚ
  annual_projection : ℚ
  categories : List (String × Nat × ℚ)
  trials_ending_soon : List Subscription
  unused_subscriptions : List Subscription
deriving DecidableEq

/-- The generic webmail domains excluded by `extract_service_name`. -/
def generic_webmail_domains : List String :=
  ["gmail", "yahoo", "hotmail", "outlook", "mail"]

/-- `GmailScanner.service_providers`. -/
def service_providers : List String :=
  ["netflix.com", "spotify.com", "adobe.com", "dropbox.com",
   "amazon.com", "apple.com", "microsoft.com", "google.com",
   "hulu.com", "disney.com", "hbo.com", "github.com",
   "notion.so", "canva.com", "grammarly.com", "zoom.us"]

/-- The subject-line branch of `extract_service_name`: the first provider
whose name (part before the first dot) occurs in the lowercased subject,
titlecased. -/
def subjectProvider (subject : String) : Option String :=
  service_providers.findSome? (fun p =>
    let name := beforeFirst '.' p.data
    if containsStr (lowerStr subject) (String.mk name) then some (pyTitle name)
    else none)

/-- `GmailScanner.extract_service_name`.  Note that when the sender field
holds an at-sign the function returns the titlecased domain company
unconditionally unless the company is a generic webmail name, and that
the display-name fallback is the first space-separated token with quotes
and angle brackets removed — either can be the empty string. -/
def extract_service_name (e : Email) : String :=
  let ff := e.from_field
  let viaDomain : Option String :=
    if hasChar '@' ff then
      let company := beforeFirst '.' (beforeFirst '>' (afterLast '@' ff.data))
      if generic_webmail_domains.contains (String.mk company) then none
      else some (pyTitle company)
    else none
  match viaDomain with
  | some s => s
  | none =>
    match subjectProvider e.subject with
    | some s => s
    | none =>
      if ff != "" then
        pyTitle ((beforeFirst ' ' ff.data).filter
          (fun c => c != Char.ofNat 34 && c != '<'))
      else "Unknown Service"

/-- One attempted match of the first currency pattern (symbol, optional
whitespace, digits, optional separator and digits) at the current
position; returns group 0, group 1 and the length consumed.  Greediness
is deterministic: shortening the whitespace run leaves a whitespace
character where a digit is required, shortening the digit runs leaves a
digit where a separator or nothing may stand, and dropping the optional
fraction leaves the separator character where nothing further is
required, so the greedy reading is the only viable one. -/
def matchP1 : List Char → Option (List Char × List Char × Nat)
  | [] => none
  | c :: rest =>
    if isCurSym c then
      let ws := rest.takeWhile isSpc
      let r1 := rest.drop ws.length
      let ds := r1.takeWhile isDig
      if ds.isEmpty then none
      else
        let r2 := r1.drop ds.length
        match r2 with
        | sep :: r3 =>
          if sep == '.' || sep == ',' then
            let fs := r3.takeWhile isDig
            if fs.isEmpty then some (c :: (ws ++ ds), ds, 1 + ws.length + ds.length)
            else
              some (c :: (ws ++ ds ++ sep :: fs), ds ++ sep :: fs,
                1 + ws.length + ds.length + 1 + fs.length)
          else some (c :: (ws ++ ds), ds, 1 + ws.length + ds.length)
        | [] => some (c :: (ws ++ ds), ds, 1 + ws.length + ds.length)
    else none

/-- The shared numeric token of the second and third patterns: digits with
an optional separator-and-digits part, greedy (deterministic for the same
reasons as in `matchP1`).  Returns the amount text and the rest. -/
def matchNumTok (l : List Char) : Option (List Char × List Char) :=
  let ds := l.takeWhile isDig
  if ds.isEmpty then none
  else
    let r1 := l.drop ds.length
    match r1 with
    | sep :: r2 =>
      if sep == '.' || sep == ',' then
        let fs := r2.takeWhile isDig
        if fs.isEmpty then some (ds, r1)
        else some (ds ++ sep :: fs, r2.drop fs.length)
      else some (ds, r1)
    | [] => some (ds, [])

/-- One attempted match of the second currency pattern (amount, optional
whitespace, symbol) at the current position. -/
def matchP2 (l : List Char) : Option (List Char × List Char × Nat) :=
  match matchNumTok l with
  | none => none
  | some (amt, r1) =>
    let ws := r1.takeWhile isSpc
    let r2 := r1.drop ws.length
    match r2 with
    | sym :: _ =>
      if isCurSym sym then some (amt ++ ws ++ [sym], amt, amt.length + ws.length + 1)
      else none
    | [] => none

/-- The alternation of the third currency pattern, in source order; the
regex engine takes the first alternative that matches, so `EUR` wins over
`euros` on text beginning with those three letters. -/
def currency_words : List (List Char) :=
  ["USD".data, "GBP".data, "EUR".data, "dollars".data, "pounds".data, "euros".data]

/-- One attempted match of the third currency pattern (amount, optional
whitespace, currency code or word, case-insensitive) at the current
position.  Group 0 keeps the original text of the matched word. -/
def matchP3 (l : List Char) : Option (List Char × List Char × Nat) :=
  match matchNumTok l with
  | none => none
  | some (amt, r1) =>
    let ws := r1.takeWhile isSpc
    let r2 := r1.drop ws.length
    match currency_words.find? (fun w => isPreCI w r2) with
    | some w =>
      some (amt ++ ws ++ r2.take w.length, amt, amt.length + ws.length + w.length)
    | none => none

/-- `re.finditer`: scan left to right, emitting non-overlapping matches
and resuming right after each match (every match of our patterns has
positive length).  Fuel is the length of the scanned text. -/
def scanWith (m : List Char → Option (List Char × List Char × Nat)) :
    Nat → List Char → List (List Char × List Char)
  | 0, _ => []
  | _ + 1, [] => []
  | fuel + 1, l =>
    match m l with
    | some (g0, g1, k) => (g0, g1) :: scanWith m fuel (l.drop k)
    | none => scanWith m fuel l.tail

/-- The raw (match text, parsed amount) pairs produced by the three
patterns of `extract_currency_amounts`, in the order the source appends
them (all matches of pattern 1, then of pattern 2, then of pattern 3). -/
def rawMatches (text : String) : List (String × ℚ) :=
  let cs := text.data
  ((scanWith matchP1 cs.length cs ++ scanWith matchP2 cs.length cs) ++
      scanWith matchP3 cs.length cs).map
    (fun m => (String.mk m.1, parseAmount m.2))

/-- The per-match currency chain of `extract_currency_amounts`: note that
the code words USD, GBP, EUR are tested case-sensitively against the
matched text while dollars, pounds, euros are tested against its
lowercasing, and that the fallback is USD. -/
def determine_currency (g0 : String) : String :=
  if hasChar '$' g0 || containsStr g0 "USD" || containsStr (lowerStr g0) "dollars" then
    "USD"
  else if hasChar '£' g0 || containsStr g0 "GBP" || containsStr (lowerStr g0) "pounds" then
    "GBP"
  else if hasChar '€' g0 || containsStr g0 "EUR" || containsStr (lowerStr g0) "euros" then
    "EUR"
  else "USD"

/-- `GmailScanner.extract_currency_amounts`. -/
def extract_currency_amounts (text : String) : List (ℚ × String) :=
  (rawMatches text).map (fun m => (m.2, determine_currency m.1))

/-- `GmailScanner.extract_billing_frequency`.  Every pattern in the four
groups is a literal, or a literal followed by an optional suffix, so a
match exists exactly when the mandatory literal occurs in the lowercased
text; the groups are tested in source order (Monthly, Annual, Quarterly,
Weekly) and the first group with any match wins. -/
def extract_billing_frequency (text : String) : Option String :=
  let t := lowerStr text
  if containsStr t "monthly" || containsStr t "per month" || containsStr t "each month" ||
      containsStr t "every month" || containsStr t "/month" ||
      containsStr t "month-to-month" then
    some "Monthly"
  else if containsStr t "annual" || containsStr t "yearly" || containsStr t "per year" ||
      containsStr t "each year" || containsStr t "every year" || containsStr t "/year" ||
      containsStr t "12-month" then
    some "Annual"
  else if containsStr t "quarterly" || containsStr t "per quarter" ||
      containsStr t "every quarter" || containsStr t "3-month" ||
      containsStr t "three-month" then
    some "Quarterly"
  else if containsStr t "weekly" || containsStr t "per week" || containsStr t "each week" ||
      containsStr t "every week" || containsStr t "/week" then
    some "Weekly"
  else none

/-- Month names for the strptime directive for full month names.  No name
is a prefix of another, so first-match over this list equals the
longest-first alternation CPython compiles (case-insensitive). -/
def month_names : List (List Char × Nat) :=
  [("january".data, 1), ("february".data, 2), ("march".data, 3), ("april".data, 4),
   ("may".data, 5), ("june".data, 6), ("july".data, 7), ("august".data, 8),
   ("september".data, 9), ("october".data, 10), ("november".data, 11),
   ("december".data, 12)]

def isLeapYear (y : ℤ) : Bool := (y % 4 == 0 && y % 100 != 0) || y % 400 == 0

def daysInMonth (y : ℤ) (m : Nat) : Nat :=
  if m == 2 then (if isLeapYear y then 29 else 28)
  else if m == 4 || m == 6 || m == 9 || m == 11 then 30
  else 31

/-- The dates the `datetime` constructor accepts without raising. -/
def validDate (y : ℤ) (m d : Nat) : Bool :=
  decide (1 ≤ y) && decide (1 ≤ m) && decide (m ≤ 12) && decide (1 ≤ d) &&
    decide (d ≤ daysInMonth y m)

/-- Days between 1970-01-01 and the given civil date (standard civil
calendar conversion; all divisions act on nonnegative operands for the
valid dates this is applied to). -/
def daysFromCivil (y : ℤ) (m d : Nat) : ℤ :=
  let y' := if m ≤ 2 then y - 1 else y
  let era : ℤ := (if 0 ≤ y' then y' else y' - 399) / 400
  let yoe : ℤ := y' - era * 400
  let mp : ℤ := ((m : ℤ) + 9) % 12
  let doy : ℤ := (153 * mp + 2) / 5 + (d : ℤ) - 1
  let doe : ℤ := yoe * 365 + yoe / 4 - yoe / 100 + doy
  era * 146097 + doe - 719468

/-- Seconds since the epoch of midnight on the given civil date: the
position of `datetime(year, month, day)` on the modelled timeline. -/
def dateToSeconds (y : ℤ) (m d : Nat) : ℚ := ((daysFromCivil y m d : ℤ) : ℚ) * 86400

/-- The 1-2 digit day or month field of strptime, read greedily.  The
regex alternation CPython compiles can only succeed with the greedy
choice here: retrying with one digit leaves a digit where the following
non-digit literal (or the end of the data under the full-consume check)
is required.  Out-of-range two-digit values, which that alternation
rejects at the regex level, are rejected by `validDate` instead — the
same verdict, a `ValueError` for this format. -/
def readD2 (l : List Char) : Option (Nat × List Char) :=
  let run := l.takeWhile isDig
  if run.isEmpty then none
  else
    let ds := run.take 2
    some (digitsToNat ds, l.drop ds.length)

/-- The exactly-four-digit year field of strptime. -/
def readY4 (l : List Char) : Option (ℤ × List Char) :=
  let run := l.takeWhile isDig
  if run.length < 4 then none
  else some ((digitsToNat (run.take 4) : ℤ), l.drop 4)

/-- A run of at least one whitespace character: what a space in a
strptime format (or a required whitespace run in the e-mail regexes)
matches. -/
def readWs1 (l : List Char) : Option (List Char) :=
  let ws := l.takeWhile isSpc
  if ws.isEmpty then none else some (l.drop ws.length)

/-- One required literal character. -/
def readLit (c : Char) : List Char → Option (List Char)
  | x :: xs => if x == c then some xs else none
  | [] => none

/-- Full month name, case-insensitive. -/
def readMonthName (l : List Char) : Option (Nat × List Char) :=
  (month_names.find? (fun mn => isPreCI mn.1 l)).map
    (fun mn => (mn.2, l.drop mn.1.length))

/-- The tail of every strptime attempt: the unconverted-data check (the
whole string must be consumed) and the `datetime` constructor's
validation. -/
def finishDate (y : ℤ) (m d : Nat) (rest : List Char) : Option ℚ :=
  if rest.isEmpty && validDate y m d then some (dateToSeconds y m d) else none

/-- strptime against the format of a full month name, day, comma, year. -/
def fmtMonthCommaYear (l : List Char) : Option ℚ :=
  (readMonthName l).bind (fun mr =>
    (readWs1 mr.2).bind (fun r2 =>
      (readD2 r2).bind (fun dr =>
        (readLit ',' dr.2).bind (fun r4 =>
          (readWs1 r4).bind (fun r5 =>
            (readY4 r5).bind (fun yr => finishDate yr.1 mr.1 dr.1 yr.2))))))

/-- strptime against the format of a full month name, day, year. -/
def fmtMonthYear (l : List Char) : Option ℚ :=
  (readMonthName l).bind (fun mr =>
    (readWs1 mr.2).bind (fun r2 =>
      (readD2 r2).bind (fun dr =>
        (readWs1 dr.2).bind (fun r4 =>
          (readY4 r4).bind (fun yr => finishDate yr.1 mr.1 dr.1 yr.2)))))

/-- strptime against a numeric format with the given separator; the first
field is the month when `monthFirst` is set, the day otherwise. -/
def fmtNum (sep : Char) (monthFirst : Bool) (l : List Char) : Option ℚ :=
  (readD2 l).bind (fun a =>
    (readLit sep a.2).bind (fun r2 =>
      (readD2 r2).bind (fun b =>
        (readLit sep b.2).bind (fun r4 =>
          (readY4 r4).bind (fun yr =>
            let m := if monthFirst then a.1 else b.1
            let d := if monthFirst then b.1 else a.1
            finishDate yr.1 m d yr.2)))))

/-- `datetime.strptime` tried against the six formats of the source, in
source order, returning the first success. -/
def strptimeFormats (g : List Char) : Option ℚ :=
  match fmtMonthCommaYear g with
  | some v => some v
  | none =>
    match fmtMonthYear g with
    | some v => some v
    | none =>
      match fmtNum '/' true g with
      | some v => some v
      | none =>
        match fmtNum '-' true g with
        | some v => some v
        | none =>
          match fmtNum '/' false g with
          | some v => some v
          | none => fmtNum '-' false g

/-- The ordinal-suffix alternation of the word-date group; the four
alternatives start with pairwise distinct letters, so first-match is
unambiguous, and skipping a present suffix cannot help (the next token,
comma or whitespace, cannot match a letter). -/
def ordinal_suffixes : List (List Char) := ["st".data, "nd".data, "rd".data, "th".data]

/-- The captured word-date group of the e-mail date patterns: letters,
whitespace, 1-2 digits, optional ordinal suffix, optional comma,
whitespace, four digits.  Returns the captured text and the rest. -/
def matchWordDate (l : List Char) : Option (List Char × List Char) :=
  let letters := l.takeWhile Char.isAlpha
  if letters.isEmpty then none
  else
    let r1 := l.drop letters.length
    let ws1 := r1.takeWhile isSpc
    if ws1.isEmpty then none
    else
      let r2 := r1.drop ws1.length
      let drun := r2.takeWhile isDig
      if drun.isEmpty then none
      else
        let ds := drun.take 2
        let r3 := r2.drop ds.length
        let sfx := (ordinal_suffixes.find? (fun s => isPreCI s r3)).getD []
        let r4 := r3.drop sfx.length
        let cm : List Char :=
          match r4 with
          | c :: _ => if c == ',' then [c] else []
          | [] => []
        let r5 := r4.drop cm.length
        let ws2 := r5.takeWhile isSpc
        if ws2.isEmpty then none
        else
          let r6 := r5.drop ws2.length
          let yrun := r6.takeWhile isDig
          if yrun.length < 4 then none
          else
            some (letters ++ ws1 ++ ds ++ r3.take sfx.length ++ cm ++ ws2 ++ yrun.take 4,
              r6.drop 4)

/-- The captured numeric-date group: 1-2 digits, slash or dash, 1-2
digits, slash or dash, 2-4 digits (greedy, with nothing after the group,
so the greedy reading is final). -/
def matchNumDate (l : List Char) : Option (List Char × List Char) :=
  let arun := l.takeWhile isDig
  if arun.isEmpty then none
  else
    let a := arun.take 2
    let r1 := l.drop a.length
    match r1 with
    | s1 :: r2 =>
      if s1 == '/' || s1 == '-' then
        let brun := r2.takeWhile isDig
        if brun.isEmpty then none
        else
          let b := brun.take 2
          let r3 := r2.drop b.length
          match r3 with
          | s2 :: r4 =>
            if s2 == '/' || s2 == '-' then
              let crun := r4.takeWhile isDig
              if crun.length < 2 then none
              else
                let c := crun.take 4
                some (a ++ s1 :: (b ++ s2 :: c), r4.drop c.length)
            else none
          | [] => none
      else none
    | [] => none

/-- The shared stem of the first two e-mail date patterns at the current
position; returns the rest after its trailing whitespace.  Each optional
piece is taken exactly when its whole unit is present: skipping a present
unit makes the next required token start on a wrong character, matching
the backtracking engine's verdict. -/
def matchTrialEndStem (l : List Char) : Option (List Char) :=
  if isPreCI "trial".data l then
    match readWs1 (l.drop 5) with
    | none => none
    | some r1 =>
      let r2 :=
        if isPreCI "will".data r1 then
          match readWs1 (r1.drop 4) with
          | some r => r
          | none => r1
        else r1
      if isPreCI "end".data r2 then
        let r3 := r2.drop 3
        let sfxLen : Nat :=
          if isPreCI "s".data r3 then 1
          else if isPreCI "ing".data r3 then 3
          else 0
        readWs1 (r3.drop sfxLen)
      else none
  else none

/-- First e-mail date pattern: the stem, a required on-plus-whitespace,
then the word date; returns the captured group. -/
def matchDatePat1 (l : List Char) : Option (List Char) :=
  match matchTrialEndStem l with
  | none => none
  | some r =>
    if isPreCI "on".data r then
      match readWs1 (r.drop 2) with
      | none => none
      | some r2 => (matchWordDate r2).map (fun g => g.1)
    else none

/-- Second e-mail date pattern: the stem, an optional on-plus-whitespace,
then the numeric date. -/
def matchDatePat2 (l : List Char) : Option (List Char) :=
  match matchTrialEndStem l with
  | none => none
  | some r =>
    let r2 :=
      if isPreCI "on".data r then
        match readWs1 (r.drop 2) with
        | some r' => r'
        | none => r
      else r
    (matchNumDate r2).map (fun g => g.1)

/-- Third e-mail date pattern: until, whitespace, word date. -/
def matchDatePat3 (l : List Char) : Option (List Char) :=
  if isPreCI "until".data l then
    (readWs1 (l.drop 5)).bind (fun r => (matchWordDate r).map (fun g => g.1))
  else none

/-- Fourth e-mail date pattern: expires, whitespace, optional
on-plus-whitespace, word date. -/
def matchDatePat4 (l : List Char) : Option (List Char) :=
  if isPreCI "expires".data l then
    match readWs1 (l.drop 7) with
    | none => none
    | some r =>
      let r2 :=
        if isPreCI "on".data r then
          match readWs1 (r.drop 2) with
          | some r' => r'
          | none => r
        else r
      (matchWordDate r2).map (fun g => g.1)
  else none

/-- `re.search`: the leftmost position where the matcher succeeds.  Fuel
is the length of the text (no pattern here matches the empty rest). -/
def searchGroup (m : List Char → Option (List Char)) :
    Nat → List Char → Option (List Char)
  | 0, _ => none
  | _ + 1, [] => none
  | fuel + 1, l =>
    match m l with
    | some g => some g
    | none => searchGroup m fuel l.tail

/-- The date-extraction loop of `detect_free_trial`: for each pattern in
source order, if it matches somewhere, try the six strptime formats on
the captured group; on failure fall through to the next pattern. -/
def find_trial_end_date (content : String) : Option ℚ :=
  let cs := content.data
  match (searchGroup matchDatePat1 cs.length cs).bind strptimeFormats with
  | some v => some v
  | none =>
    match (searchGroup matchDatePat2 cs.length cs).bind strptimeFormats with
    | some v => some v
    | none =>
      match (searchGroup matchDatePat3 cs.length cs).bind strptimeFormats with
      | some v => some v
      | none => (searchGroup matchDatePat4 cs.length cs).bind strptimeFormats

/-- The trial-indicating literal patterns of `detect_free_trial`. -/
def trial_patterns : List String :=
  ["free trial", "trial period", "trial ends", "trial will end", "trial expir"]

/-- `SubscriptionAnalyzer.detect_free_trial`. -/
def detect_free_trial (email_content : String) : Bool × Option ℚ :=
  let isTrial := trial_patterns.any (fun p => containsCI email_content p)
  if isTrial then (true, find_trial_end_date email_content) else (false, none)

/-- `SubscriptionAnalyzer.service_categories`, in dict insertion order. -/
def service_categories : List (String × List String) :=
  [("streaming",
    ["netflix", "hulu", "disney", "spotify", "apple music", "youtube",
     "hbo", "prime video", "paramount", "peacock", "crunchyroll",
     "dazn", "fubo", "sling", "tidal"]),
   ("productivity",
    ["microsoft", "office", "google", "workspace", "dropbox", "box",
     "evernote", "notion", "airtable", "asana", "trello", "slack",
     "zoom", "adobe", "canva", "grammarly"]),
   ("gaming",
    ["xbox", "playstation", "nintendo", "steam", "epic games", "ea play",
     "ubisoft", "game pass", "ps plus", "nintendo online"]),
   ("fitness",
    ["peloton", "fitbit", "strava", "myfitnesspal", "beachbody", "classpass",
     "fitness", "gym", "workout"]),
   ("news",
    ["nyt", "new york times", "wsj", "wall street journal", "washington post",
     "economist", "financial times", "bloomberg", "medium", "substack"]),
   ("shopping",
    ["amazon", "walmart", "instacart", "doordash", "uber eats", "grubhub",
     "hello fresh", "blue apron", "prime", "costco"]),
   ("security",
    ["norton", "mcafee", "avast", "avg", "kaspersky", "bitdefender",
     "vpn", "password", "lastpass", "1password", "dashlane"]),
   ("cloud",
    ["aws", "amazon web", "azure", "google cloud", "digitalocean", "linode",
     "vultr", "heroku", "netlify", "vercel"])]

/-- One pass of the category keyword search: the first category, in dict
order, one of whose keywords occurs in the lowercased text, titlecased. -/
def findCategory (t : String) : Option String :=
  service_categories.findSome? (fun ck =>
    if ck.2.any (fun k => containsStr t k) then some (pyTitle ck.1.data) else none)

/-- `SubscriptionAnalyzer.categorize_subscription`: the keyword search on
the service name, then on the body, then the default. -/
def categorize_subscription (service_name email_content : String) : String :=
  match findCategory (lowerStr service_name) with
  | some c => c
  | none =>
    match findCategory (lowerStr email_content) with
    | some c => c
    | none => "Other"

/-- `SubscriptionAnalyzer.calculate_monthly_cost`.  The falsiness test on
the frequency is the empty-string test here (the analyzer never passes
None), and the substring tests run on the lowercased frequency in source
order. -/
def calculate_monthly_cost (amount : ℚ) (frequency : String) : ℚ :=
  if frequency = "" then amount
  else
    let f := lowerStr frequency
    if containsStr f "annual" || containsStr f "yearly" then amount / 12
    else if containsStr f "quarterly" then amount / 3
    else if containsStr f "weekly" then amount * (433 / 100 : ℚ)
    else if containsStr f "daily" then amount * (3042 / 100 : ℚ)
    else amount

/-- `SubscriptionAnalyzer.is_subscription_active`: the whole-day count of
the elapsed time (Python `timedelta.days`, a floor) compared with the
threshold. -/
def is_subscription_active (now last_email_date : ℚ) (threshold_days : ℤ) : Bool :=
  decide (⌊(now - last_email_date) / (86400 : ℚ)⌋ ≤ threshold_days)

/-- The inline service-name fallback of `analyze_subscription_emails`
(used when the pipeline did not annotate the message): the titlecased
part of the sender domain before the first dot, or the titlecased empty
string when the sender has no at-sign. -/
def inline_service_fallback (e : Email) : String :=
  let fd :=
    if hasChar '@' e.from_field then beforeFirst '>' (afterLast '@' e.from_field.data)
    else []
  pyTitle (beforeFirst '.' fd)

/-- The grouping key of `analyze_subscription_emails` for one message. -/
def serviceKey (e : Email) : String := e.service_name.getD (inline_service_fallback e)

/-- Appending one message to its service group, keeping dict key order. -/
def insertGroup (k : String) (e : Email) :
    List (String × List Email) → List (String × List Email)
  | [] => [(k, [e])]
  | g :: gs => if g.1 == k then (g.1, g.2 ++ [e]) :: gs else g :: insertGroup k e gs

/-- The grouping loop of `analyze_subscription_emails`: a dict from
service name to the messages with that name, keys in first-insertion
order, each group in message order. -/
def groupByService (emails : List Email) : List (String × List Email) :=
  emails.foldl (fun acc e => insertGroup (serviceKey e) e acc) []

/-- Stable insertion for the descending sort by timestamp: the new
element goes before the first strictly older element, after every at
least as recent one. -/
def insertByTs (x : Email) : List Email → List Email
  | [] => [x]
  | y :: ys => if x.timestamp ≥ y.timestamp then x :: y :: ys else y :: insertByTs x ys

/-- Python `list.sort(key=timestamp, reverse=True)`: a stable descending
sort (the documented stability of Python sorts also holds under
`reverse=True`: equal keys keep their original order). -/
def sortByTsDesc : List Email → List Email
  | [] => []
  | x :: xs => insertByTs x (sortByTsDesc xs)

/-- One step of the amount-occurrence dict: Python dict insertion order
keeps the first occurrence's position. -/
def bumpCount (a : ℚ) : List (ℚ × Nat) → List (ℚ × Nat)
  | [] => [(a, 1)]
  | p :: ps => if p.1 == a then (p.1, p.2 + 1) :: ps else p :: bumpCount a ps

/-- The `amount_counts` dict of `analyze_subscription_emails`. -/
def amount_counts (amounts : List (ℚ × String)) : List (ℚ × Nat) :=
  amounts.foldl (fun acc p => bumpCount p.1 acc) []

/-- Python `max(items, key=count)`: the first item attaining the maximal
count (later items replace the best only when strictly greater). -/
def maxByCountGo (best : ℚ × Nat) : List (ℚ × Nat) → ℚ
  | [] => best.1
  | p :: ps => if p.2 > best.2 then maxByCountGo p ps else maxByCountGo best ps

/-- The amount-selection block of `analyze_subscription_emails` (source
lines 211-229): the most common amount, ties broken by first occurrence,
with the currency of the first extracted pair carrying that amount and a
USD default. -/
def select_amount (amounts : List (ℚ × String)) : Option ℚ × String :=
  match amount_counts amounts with
  | [] => (none, "USD")
  | c :: cs =>
    let a := maxByCountGo c cs
    (some a, (((amounts.find? (fun p => p.1 == a)).map (fun p => p.2)).getD "USD"))

/-- The inline frequency inference of `analyze_subscription_emails`: each
regex is an alternation of literals, so a match exists exactly when one
of the literals occurs case-insensitively; tested in source order with
an Unknown default. -/
def infer_billing_frequency (body : String) : String :=
  if containsCI body "monthly" || containsCI body "per month" || containsCI body "/month" then
    "Monthly"
  else if containsCI body "annual" || containsCI body "yearly" ||
      containsCI body "per year" || containsCI body "/year" then
    "Annual"
  else if containsCI body "quarterly" || containsCI body "per quarter" ||
      containsCI body "every 3 months" then
    "Quarterly"
  else "Unknown"

/-- The per-group record construction of `analyze_subscription_emails`.
The source guards both extractor calls with `hasattr(latest_email, ...)`;
`latest_email` is a plain dict, so both guards are always false: the
amount list stays empty (the selection block below it runs on the empty
list) and the billing frequency always comes from the inline inference. -/
def buildRecord (now : ℚ) (service_name : String) (count : Nat) (latest : Email) :
    Subscription :=
  let email_date := latest.timestamp
  let body := latest.body_text
  let amounts : List (ℚ × String) := []
  let sel := select_amount amounts
  let billing_frequency := infer_billing_frequency body
  let category := categorize_subscription service_name body
  let ft := detect_free_trial body
  let monthly_cost := sel.1.map (fun a => calculate_monthly_cost a billing_frequency)
  { service_name := service_name
    category := category
    amount := sel.1
    currency := sel.2
    billing_frequency := billing_frequency
    monthly_cost := monthly_cost
    last_email_date := email_date
    is_active := is_subscription_active now email_date 60
    is_free_trial := ft.1
    trial_end_date := ft.2
    email_count := count
    latest_email_id := latest.id }

/-- `SubscriptionAnalyzer.analyze_subscription_emails` with the hidden
`datetime.now()` passed explicitly.  Every group holds at least one
message, so the empty-sort branch is unreachable. -/
def analyze_subscription_emails (now : ℚ) (emails : List Email) : List Subscription :=
  (groupByService emails).filterMap (fun g =>
    match sortByTsDesc g.2 with
    | [] => none
    | latest :: _ => some (buildRecord now g.1 g.2.length latest))

/-- The record-building pipeline of `agent.scan_gmail` (its pure part,
the specification's buildSubscriptionRecords): every message is annotated
with `extract_service_name` and the list is passed to the analyzer. -/
def buildSubscriptionRecords (now : ℚ) (emails : List Email) : List Subscription :=
  analyze_subscription_emails now
    (emails.map (fun e => { e with service_name := some (extract_service_name e) }))

/-- One step of the per-category rollup dict: count plus one, monthly
cost plus the record's monthly cost with None (and 0, by the source's
`or 0`) read as 0; key order is first insertion. -/
def addCategory (s : Subscription) :
    List (String × Nat × ℚ) → List (String × Nat × ℚ)
  | [] => [(s.category, 1, s.monthly_cost.getD 0)]
  | c :: cs =>
    if c.1 == s.category then (c.1, c.2.1 + 1, c.2.2 + s.monthly_cost.getD 0) :: cs
    else c :: addCategory s cs

/-- `SubscriptionAnalyzer.generate_summary_report` with the hidden
`datetime.now()` passed explicitly. -/
def generate_summary_report (now : ℚ) (subscriptions : List Subscription) :
    SummaryReport :=
  let active := subscriptions.filter (fun s => s.is_active)
  let total_monthly_cost := (active.filterMap (fun s => s.monthly_cost)).sum
  let categories := active.foldl (fun acc s => addCategory s acc) []
  let trials := subscriptions.filter (fun s =>
    s.is_free_trial &&
      match s.trial_end_date with
      | none => false
      | some d => decide (now < d) && decide (⌊(d - now) / (86400 : ℚ)⌋ ≤ 14))
  let unused := active.filter (fun s =>
    decide ((60 : ℤ) < ⌊(now - s.last_email_date) / (86400 : ℚ)⌋))
  { total_subscriptions := subscriptions.length
    active_subscriptions := active.length
    total_monthly_cost := total_monthly_cost
    annual_projection := total_monthly_cost * 12
    categories := categories
    trials_ending_soon := trials
    unused_subscriptions := unused }

/-- The currency-resolution rule as the amended specification states it:
per match, precedence dollar sign, exact-case USD code, any-case dollars
word, then the pound and euro rows likewise, then the USD default. -/
def currency_resolution_spec (matched : String) : String :=
  if hasChar '$' matched || containsStr matched "USD" ||
      containsStr (lowerStr matched) "dollars" then "USD"
  else if hasChar '£' matched || containsStr matched "GBP" ||
      containsStr (lowerStr matched) "pounds" then "GBP"
  else if hasChar '€' matched || containsStr matched "EUR" ||
      containsStr (lowerStr matched) "euros" then "EUR"
  else "USD"

/-- The cost-normalisation rule as the specification states it: ordered
case-insensitive substring tests on the frequency, with no special case
for the empty string. -/
def monthly_cost_spec (amount : ℚ) (frequency : String) : ℚ :=
  let f := lowerStr frequency
  if containsStr f "annual" || containsStr f "yearly" then amount / 12
  else if containsStr f "quarterly" then amount / 3
  else if containsStr f "weekly" then amount * (433 / 100 : ℚ)
  else if containsStr f "daily" then amount * (3042 / 100 : ℚ)
  else amount

/-- A free-trial record used to exercise the trial window. -/
def trialRec (d : ℚ) : Subscription :=
  { service_name := "Svc", category := "Other", amount := none, currency := "USD",
    billing_frequency := "Unknown", monthly_cost := none, last_email_date := 0,
    is_active := true, is_free_trial := true, trial_end_date := some d,
    email_count := 1, latest_email_id := "m" }

/-- An active record whose activity flag agrees with the freshness
predicate at instant 0. -/
def activeRec : Subscription :=
  { service_name := "Svc", category := "Other", amount := none, currency := "USD",
    billing_frequency := "Unknown", monthly_cost := none, last_email_date := 0,
    is_active := true, is_free_trial := false, trial_end_date := none,
    email_count := 1, latest_email_id := "m" }

/-- A service group with a timestamp tie at the maximum, for exercising
the representative selection. -/
def tieGroup : List Email :=
  [{ id := "a", from_field := "", subject := "", body_text := "", timestamp := 5,
     service_name := none },
   { id := "b", from_field := "", subject := "", body_text := "", timestamp := 7,
     service_name := none },
   { id := "c", from_field := "", subject := "", body_text := "", timestamp := 7,
     service_name := none }]

theorem isPre_iff (n h : List Char) : isPre n h = true ↔ ∃ t, h = n ++ t := by
  induction n generalizing h with
  | nil => simp [isPre]
  | cons a as ih =>
    cases h with
    | nil => simp [isPre]
    | cons b bs =>
      simp only [isPre, Bool.and_eq_true, beq_iff_eq, ih, List.cons_append]
      constructor
      · rintro ⟨rfl, t, rfl⟩
        exact ⟨t, rfl⟩
      · rintro ⟨t, ht⟩
        injection ht with h1 h2
        exact ⟨h1.symm, t, h2⟩

theorem hasSubList_iff (n h : List Char) :
    hasSubList n h = true ↔ ∃ p t, h = p ++ n ++ t := by
  induction h with
  | nil =>
    rw [show hasSubList n [] = isPre n [] from rfl, isPre_iff]
    constructor
    · rintro ⟨t, ht⟩
      exact ⟨[], t, by simpa using ht⟩
    · rintro ⟨p, t, ht⟩
      exact ⟨t,
        ((List.append_eq_nil.mp
          (by simpa [List.append_assoc] using ht.symm)).2).symm⟩
  | cons c cs ih =>
    rw [show hasSubList n (c :: cs) = (isPre n (c :: cs) || hasSubList n cs) from rfl]
    simp only [Bool.or_eq_true, isPre_iff, ih]
    constructor
    · rintro (⟨t, ht⟩ | ⟨p, t, ht⟩)
      · exact ⟨[], t, by simpa using ht⟩
      · exact ⟨c :: p, t, by simp [ht]⟩
    · rintro ⟨p, t, ht⟩
      cases p with
      | nil => exact Or.inl ⟨t, by simpa using ht⟩
      | cons x xs =>
        refine Or.inr ⟨xs, t, ?_⟩
        have h2 : c = x ∧ cs = xs ++ n ++ t := by simpa using ht
        exact h2.2

theorem hasSubList_map (f : Char → Char) {n h : List Char}
    (hh : hasSubList n h = true) : hasSubList (n.map f) (h.map f) = true := by
  rw [hasSubList_iff] at hh ⊢
  obtain ⟨p, t, rfl⟩ := hh
  exact ⟨p.map f, t.map f, by simp⟩

theorem floorDays_le_iff (x : ℚ) (n : ℤ) :
    ⌊x / (86400 : ℚ)⌋ ≤ n ↔ x < ((n : ℚ) + 1) * 86400 := by
  rw [Int.floor_le_iff, div_lt_iff₀ (by norm_num : (0 : ℚ) < 86400)]

theorem buildRecords_singleton_service_name (now : ℚ) (e : Email) :
    (buildSubscriptionRecords now [e]).map (fun s => s.service_name) =
      [extract_service_name e] := rfl

theorem head_insertByTs (x y : Email) (ys : List Email) :
    (insertByTs x (y :: ys)).head? =
      some (if x.timestamp ≥ y.timestamp then x else y) := by
  by_cases h : x.timestamp ≥ y.timestamp
  · simp [insertByTs, h]
  · simp [insertByTs, h]

/-- C9: for every non-empty service group, the representative message
selected by buildSubscriptionRecords — the head of the stable descending
sort by timestamp the analyzer takes in each group — is a message with
the maximal timestamp, and among messages tied at that maximum it is the
one encountered first in the group's original order. -/
theorem representative_first_max_timestamp :
    ∀ l : List Email, l ≠ [] →
      ∃ m, (sortByTsDesc l).head? = some m ∧ m ∈ l ∧
        (∀ e ∈ l, e.timestamp ≤ m.timestamp) ∧
        ∃ p t, l = p ++ m :: t ∧ ∀ e ∈ p, e.timestamp < m.timestamp := by
  intro l
  induction l with
  | nil => intro hne; exact absurd rfl hne
  | cons x xs ih =>
    intro _
    by_cases hxs : xs = []
    · subst hxs
      refine ⟨x, rfl, List.mem_singleton_self x, ?_, [], [], rfl, by simp⟩
      intro e he
      rw [List.mem_singleton.mp he]
    · obtain ⟨m, h1, h2, h3, p, t, hsplit, hpre⟩ := ih hxs
      rcases hsort : sortByTsDesc xs with _ | ⟨z, zs⟩
      · rw [hsort] at h1
        exact absurd h1 (by simp)
      · rw [hsort] at h1
        have hz : z = m := by simpa using h1
        subst hz
        by_cases hc : x.timestamp ≥ z.timestamp
        · refine ⟨x, ?_, List.mem_cons_self x xs, ?_, [], xs, rfl, by simp⟩
          · show (insertByTs x (sortByTsDesc xs)).head? = some x
            rw [hsort, head_insertByTs, if_pos hc]
          · intro e he
            rcases List.mem_cons.mp he with rfl | hmem
            · exact le_refl _
            · exact le_trans (h3 e hmem) hc
        · have hlt : x.timestamp < z.timestamp := lt_of_not_ge hc
          refine ⟨z, ?_, List.mem_cons_of_mem x h2, ?_, x :: p, t,
            by rw [List.cons_append, ← hsplit], ?_⟩
          · show (insertByTs x (sortByTsDesc xs)).head? = some z
            rw [hsort]
            simp [insertByTs, if_neg hc]
          · intro e he
            rcases List.mem_cons.mp he with rfl | hmem
            · exact le_of_lt hlt
            · exact h3 e hmem
          · intro e he
            rcases List.mem_cons.mp he with rfl | hmem
            · exact hlt
            · exact hpre e hmem

/-- Witness for C9: on a group with timestamps 5, 7, 7 the selected
representative exists and satisfies the stated properties (it is the
first message with timestamp 7). -/
theorem representative_first_max_timestamp_witness :
    tieGroup ≠ [] ∧
    ∃ m, (sortByTsDesc tieGroup).head? = some m ∧ m ∈ tieGroup ∧
      (∀ e ∈ tieGroup, e.timestamp ≤ m.timestamp) ∧
      ∃ p t, tieGroup = p ++ m :: t ∧ ∀ e ∈ p, e.timestamp < m.timestamp :=
  ⟨by decide, representative_first_max_timestamp tieGroup (by decide)⟩

/-- C3: every text containing both the substring annual and the substring
monthly is classified Monthly by extract_billing_frequency, because the
Monthly pattern group is tested first and the first group with a match
wins. -/
theorem billing_frequency_monthly_wins :
    ∀ text : String, containsStr text "annual" = true →
      containsStr text "monthly" = true →
      extract_billing_frequency text = some "Monthly" := by
  intro text _ hm
  have hm' : hasSubList "monthly".data text.data = true := hm
  have h2 := hasSubList_map Char.toLower hm'
  have h3 : ("monthly".data.map Char.toLower) = "monthly".data := by decide
  rw [h3] at h2
  have hc : containsStr (lowerStr text) "monthly" = true := h2
  simp [extract_billing_frequency, hc]

/-- Witness for C3 at a text holding both substrings. -/
theorem billing_frequency_monthly_wins_witness :
    containsStr "annual plan, monthly billing" "annual" = true ∧
    containsStr "annual plan, monthly billing" "monthly" = true ∧
    extract_billing_frequency "annual plan, monthly billing" = some "Monthly" :=
  ⟨by decide, by decide,
    billing_frequency_monthly_wins "annual plan, monthly billing" (by decide) (by decide)⟩

/-- C2 counterexample: a message whose sender field is a single space (no
at-sign, no provider in the empty subject, blank first display-name
token) produces a record whose service_name is the empty string, not the
sentinel. -/
theorem service_name_can_be_blank :
    (buildSubscriptionRecords 0
        [{ id := "m1", from_field := " ", subject := "", body_text := "",
           timestamp := 0, service_name := none }]).map
      (fun s => s.service_name) = [""] := by decide

/-- C2 amended: every record's service_name comes from
extract_service_name; when the sender field is empty and no known
provider name occurs in the subject, it is the sentinel Unknown Service
(but a non-empty malformed sender can still yield the empty string, as
the counterexample shows). -/
theorem service_name_unknown_on_empty_sender :
    ∀ (now : ℚ) (e : Email), e.from_field = "" → subjectProvider e.subject = none →
      (buildSubscriptionRecords now [e]).map (fun s => s.service_name) =
        ["Unknown Service"] := by
  intro now e hf hp
  have hs : extract_service_name e = "Unknown Service" := by
    simp only [extract_service_name, hf, hp]
    rfl
  rw [buildRecords_singleton_service_name, hs]

/-- Witness for C2 amended at a concrete message with an empty sender. -/
theorem service_name_unknown_on_empty_sender_witness :
    subjectProvider "hello" = none ∧
    (buildSubscriptionRecords 0
        [{ id := "m2", from_field := "", subject := "hello", body_text := "",
           timestamp := 0, service_name := none }]).map
      (fun s => s.service_name) = ["Unknown Service"] :=
  ⟨by decide,
    service_name_unknown_on_empty_sender 0
      { id := "m2", from_field := "", subject := "hello", body_text := "",
        timestamp := 0, service_name := none } (by decide) (by decide)⟩

/-- C1 (code-bug evaluation): on a message whose body holds the
symbol-prefixed amount 12.50, the built record's amount is none — the
hasattr guard in the analyzer is always false on a dict, so the
extractor never runs — even though extract_currency_amounts applied to
that same body does return the pair (12.50, USD). -/
theorem analyze_never_extracts_amount :
    (buildSubscriptionRecords 0
        [{ id := "m1", from_field := "billing@netflix.com", subject := "Your receipt",
           body_text := "Your bill: $12.50 due", timestamp := 0,
           service_name := none }]).map (fun s => s.amount) = [none] ∧
    extract_currency_amounts "Your bill: $12.50 due" = [((25 : ℚ)/2, "USD")] :=
  ⟨by decide, by with_unfolding_all decide⟩

/-- C4 counterexample: the lowercase code gbp is matched (matching is
case-insensitive) but resolved to the USD default, because the GBP code
test on the matched text is case-sensitive; the claimed pair with GBP is
not produced. -/
theorem lowercase_code_defaults_to_usd :
    extract_currency_amounts "10.99 gbp" = [((1099 : ℚ)/100, "USD")] ∧
    ¬ (((1099 : ℚ)/100, "GBP") ∈ extract_currency_amounts "10.99 gbp") :=
  ⟨by with_unfolding_all decide, by with_unfolding_all decide⟩

/-- C4 amended: extract_currency_amounts matches its three shapes
case-insensitively, and per match resolves the currency from the matched
text by the precedence dollar sign or exact-case USD or any-case dollars,
then pound sign or exact-case GBP or any-case pounds, then euro sign or
exact-case EUR or any-case euros, then the USD default — so codes in
other letter cases fall to USD; and the bill example contains the pair
(12.50, USD). -/
theorem currency_amounts_amended :
    (∀ text : String, extract_currency_amounts text =
        (rawMatches text).map (fun m => (m.2, currency_resolution_spec m.1))) ∧
    ((25 : ℚ)/2, "USD") ∈ extract_currency_amounts "Your bill: $12.50 due" ∧
    extract_currency_amounts "10.99 GBP" = [((1099 : ℚ)/100, "GBP")] ∧
    extract_currency_amounts "10.99 Pounds" = [((1099 : ℚ)/100, "GBP")] ∧
    extract_currency_amounts "5 eur" = [((5 : ℚ), "USD")] :=
  ⟨fun _ => rfl, by with_unfolding_all decide, by with_unfolding_all decide,
    by with_unfolding_all decide, by with_unfolding_all decide⟩

/-- C5: calculate_monthly_cost agrees everywhere with the specification's
ordered case-insensitive substring rule (annual or yearly give a twelfth,
quarterly a third, weekly times 4.33, daily times 30.42, anything else —
including the empty frequency — the amount unchanged), and takes the
three documented values. -/
theorem monthly_cost_matches_spec :
    (∀ (amount : ℚ) (frequency : String),
        calculate_monthly_cost amount frequency = monthly_cost_spec amount frequency) ∧
    calculate_monthly_cost 120 "Annual" = 10 ∧
    calculate_monthly_cost 30 "Weekly" = (1299 : ℚ)/10 ∧
    calculate_monthly_cost ((999 : ℚ)/100) "Monthly" = (999 : ℚ)/100 := by
  refine ⟨fun amount frequency => ?_, by with_unfolding_all decide,
    by with_unfolding_all decide, by with_unfolding_all decide⟩
  by_cases h : frequency = ""
  · subst h; rfl
  · simp only [calculate_monthly_cost, monthly_cost_spec, if_neg h]

/-- C6: the empty message list yields the empty record list, and the
summary of the empty record list has zero totals, zero projection and
empty category, trial and unused collections, at every instant. -/
theorem empty_inputs_yield_empty_outputs :
    ∀ now : ℚ, buildSubscriptionRecords now [] = [] ∧
      (generate_summary_report now []).total_subscriptions = 0 ∧
      (generate_summary_report now []).active_subscriptions = 0 ∧
      (generate_summary_report now []).total_monthly_cost = 0 ∧
      (generate_summary_report now []).annual_projection = 0 ∧
      (generate_summary_report now []).categories = [] ∧
      (generate_summary_report now []).trials_ending_soon = [] ∧
      (generate_summary_report now []).unused_subscriptions = [] := by
  intro now
  exact ⟨rfl, rfl, rfl, rfl, by with_unfolding_all rfl, rfl, rfl, rfl⟩

theorem floorDays_le_fourteen (x : ℚ) :
    ⌊x / (86400 : ℚ)⌋ ≤ (14 : ℤ) ↔ x < 15 * 86400 := by
  rw [floorDays_le_iff]
  norm_num

/-- C7 counterexample: a record whose last message lies sixty days and
one second before now is counted active by is_subscription_active even
though the elapsed time exceeds sixty days, because the day count is a
floor. -/
theorem active_just_past_sixty_days :
    is_subscription_active (60 * 86400 + 1) 0 60 = true ∧
    ¬ ((60 * 86400 + 1 : ℚ) - 0 ≤ 60 * 86400) :=
  ⟨by with_unfolding_all decide, by with_unfolding_all decide⟩

/-- C7 amended: is_subscription_active at the sixty-day threshold is true
exactly when the elapsed time is strictly below sixty-one days (whole-day
truncation, so the sixty-day boundary itself is inclusive); a record
ninety days old is inactive and one ten days old is active. -/
theorem is_active_floor_boundary :
    (∀ now last : ℚ, is_subscription_active now last 60 = true ↔
        now - last < 61 * 86400) ∧
    is_subscription_active (90 * 86400) 0 60 = false ∧
    is_subscription_active (10 * 86400) 0 60 = true ∧
    is_subscription_active (60 * 86400) 0 60 = true := by
  refine ⟨fun now last => ?_, by with_unfolding_all decide,
    by with_unfolding_all decide, by with_unfolding_all decide⟩
  simp only [is_subscription_active, decide_eq_true_eq, floorDays_le_iff]
  norm_num

/-- C8 counterexample: a free-trial record ending fourteen days and one
second after now is listed in trials_ending_soon even though its end lies
more than fourteen days ahead, because the day count is a floor. -/
theorem trial_included_just_past_fourteen_days :
    trialRec (14 * 86400 + 1) ∈
      (generate_summary_report 0 [trialRec (14 * 86400 + 1)]).trials_ending_soon ∧
    ¬ ((14 * 86400 + 1 : ℚ) - 0 ≤ 14 * 86400) := by
  constructor
  · refine List.mem_filter.mpr ⟨List.mem_singleton_self _, ?_⟩
    with_unfolding_all decide
  · with_unfolding_all decide

/-- C8 amended: a record is listed in trials_ending_soon exactly when it
is one of the inputs, is a free trial, and has a non-null end date
strictly after now and strictly less than fifteen days after now
(whole-day truncation of the lead time); a trial ending five days ahead
is listed, one ending twenty days ahead is not. -/
theorem trials_ending_soon_membership :
    (∀ (now : ℚ) (subs : List Subscription) (s : Subscription),
        s ∈ (generate_summary_report now subs).trials_ending_soon ↔
          s ∈ subs ∧ s.is_free_trial = true ∧
            ∃ d, s.trial_end_date = some d ∧ now < d ∧ d - now < 15 * 86400) ∧
    trialRec (5 * 86400) ∈
      (generate_summary_report 0
          [trialRec (5 * 86400), trialRec (20 * 86400)]).trials_ending_soon ∧
    ¬ (trialRec (20 * 86400) ∈
      (generate_summary_report 0
          [trialRec (5 * 86400), trialRec (20 * 86400)]).trials_ending_soon) := by
  refine ⟨fun now subs s => ?_, ?_, ?_⟩
  · show s ∈ subs.filter (fun s =>
        s.is_free_trial &&
          match s.trial_end_date with
          | none => false
          | some d => decide (now < d) && decide (⌊(d - now) / (86400 : ℚ)⌋ ≤ 14)) ↔ _
    rw [List.mem_filter]
    rcases htd : s.trial_end_date with _ | d
    · simp [htd]
    · simp only [htd, Bool.and_eq_true, decide_eq_true_eq, floorDays_le_fourteen,
        Option.some.injEq]
      constructor
      · rintro ⟨hmem, hft, hlt, hdays⟩
        exact ⟨hmem, hft, d, rfl, hlt, hdays⟩
      · rintro ⟨hmem, hft, d', hd', hlt, hdays⟩
        subst hd'
        exact ⟨hmem, hft, hlt, hdays⟩
  · refine List.mem_filter.mpr ⟨List.mem_cons_self _ _, ?_⟩
    with_unfolding_all decide
  · intro hmem
    exact absurd (List.mem_filter.mp hmem).2 (by with_unfolding_all decide)

/-- C10: when every record's is_active flag equals the sixty-day
freshness predicate evaluated at the same instant the summary uses, the
summary's unused_subscriptions list is empty — no record can be active
and at the same time have a last message more than sixty whole days old. -/
theorem unused_empty_under_consistent_activity :
    ∀ (now : ℚ) (subs : List Subscription),
      (∀ s ∈ subs, s.is_active = is_subscription_active now s.last_email_date 60) →
      (generate_summary_report now subs).unused_subscriptions = [] := by
  intro now subs h
  show (subs.filter (fun s => s.is_active)).filter
      (fun s => decide ((60 : ℤ) < ⌊(now - s.last_email_date) / (86400 : ℚ)⌋)) = []
  rw [List.filter_eq_nil_iff]
  intro s hs
  obtain ⟨hmem, hact⟩ := List.mem_filter.mp hs
  have ha := h s hmem
  rw [hact] at ha
  have hb : decide (⌊(now - s.last_email_date) / (86400 : ℚ)⌋ ≤ (60 : ℤ)) = true :=
    ha.symm
  have hc := of_decide_eq_true hb
  simp only [decide_eq_true_eq]
  omega

/-- Witness for C10 at a concrete record list satisfying the
consistency hypothesis. -/
theorem unused_empty_under_consistent_activity_witness :
    (∀ s ∈ [activeRec], s.is_active = is_subscription_active 0 s.last_email_date 60) ∧
    (generate_summary_report 0 [activeRec]).unused_subscriptions = [] :=
  ⟨by with_unfolding_all decide,
    unused_empty_under_consistent_activity 0 [activeRec] (by with_unfolding_all decide)⟩
